import Mathlib

/-!
Verification of the per-room playback queue state machine of the `chune`
Discord bot (`src/bot.rs`).

The embedding models the per-guild state (`Guild`), the shared registry
(`DashMap<GuildId, Guild>` as a function `GuildId → Option Guild`), and the
four operations of the code: the play command's enqueue block
(`Handler::handle_play`, lines 178-212), the advance protocol
(`InternalHandler::check_guild_queue`), the song-end completion callback
(`SongEndHandler::act`), and the skip command (`Handler::handle_skip`).

External effects (voice-channel join, ffmpeg source creation, event-handler
registration, track-handle allocation) are supplied by an `Effects` oracle,
and the transport calls the code makes (join, play_source, leaving the
channel, stop) are recorded as an event list.
-/

abbrev GuildId := Nat
abbrev ChannelId := Nat
abbrev TrackHandle := Nat

/-- Rust struct `Song` from bot.rs, holding the resolved url. -/
structure Song where
  url : String
deriving DecidableEq

/-- Rust struct `Guild` from bot.rs: per-room mutable playback state. -/
structure Guild where
  channel_id : ChannelId
  handle : Option TrackHandle
  now_playing : Option Song
  queue : List Song
deriving DecidableEq

/-- Constructor `Guild::new(channel_id)`. -/
def Guild.new (channel_id : ChannelId) : Guild :=
  { channel_id := channel_id, handle := none, now_playing := none, queue := [] }

/-- Error enum `PlayError` from error.rs (payloads of `Unknown` dropped;
`BotNotPlaying` is the variant `handle_skip` references). -/
inductive PlayError where
  | NoUrl
  | NoGuildId
  | Ytdl (url : String)
  | Join
  | Ffmpeg
  | NoChannel
  | BotNotPlaying
  | Unknown
deriving DecidableEq

/-- Calls made to the external playback transport (songbird). -/
inductive Ev where
  | join (g : GuildId) (c : ChannelId)
  | startStream (g : GuildId) (s : Song)
  | leave (g : GuildId)
  | stop (h : TrackHandle)
deriving DecidableEq

/-- Oracle for the outcomes of external calls during one advance. -/
structure Effects where
  joinOk : Bool
  ffmpegOk : Bool
  addEventOk : Bool
  newHandle : TrackHandle
deriving DecidableEq

/-- Resolver output `YoutubeDlOutput`: a playlist (whose entry list may be
absent, and whose entries may each lack a url) or a single video (whose url
may be absent). -/
inductive YtdlOutput where
  | Playlist (entries : Option (List (Option String)))
  | SingleVideo (url : Option String)
deriving DecidableEq

/-- The registry `DashMap<GuildId, Guild>`. -/
abbrev Registry := GuildId → Option Guild

def Registry.insert (r : Registry) (g : GuildId) (gd : Guild) : Registry :=
  fun g' => if g' = g then some gd else r g'

def Registry.remove (r : Registry) (g : GuildId) : Registry :=
  fun g' => if g' = g then none else r g'

def emptyRegistry : Registry := fun _ => none

/-- Function `Handler::get_guild` (bot.rs lines 257-275): get-or-create, updating
`channel_id` unconditionally when the entry exists.  Returns the guild value
the caller holds a mutable reference to, plus the registry contents. -/
def get_guild (guilds : Registry) (guild_id : GuildId) (channel_id : ChannelId) :
    Guild × Registry :=
  match guilds guild_id with
  | some guild =>
      let g := { guild with channel_id := channel_id }
      (g, Registry.insert guilds guild_id g)
  | none =>
      let g := Guild.new channel_id
      (g, Registry.insert guilds guild_id g)

/-- The playlist loop of `handle_play` (bot.rs lines 189-196): push each
entry's url, aborting with `Ytdl` at the first entry whose url is missing.
Pushes made before the failing entry persist (the `RefMut` mutates in place). -/
def pushEntries (url : String) : Guild → List (Option String) → Guild × Except PlayError Unit
  | guild, [] => (guild, .ok ())
  | guild, none :: _ => (guild, .error (.Ytdl url))
  | guild, some u :: rest =>
      pushEntries url { guild with queue := guild.queue ++ [Song.mk u] } rest

/-- The enqueue block of `handle_play` (bot.rs lines 178-212): get-or-create
the guild (relocating its channel), then append the resolved songs. -/
def play_enqueue (guilds : Registry) (guild_id : GuildId) (channel_id : ChannelId)
    (url : String) (resp : YtdlOutput) : Except PlayError Unit × Registry :=
  let gr := get_guild guilds guild_id channel_id
  match resp with
  | .Playlist none => (.error (.Ytdl url), gr.2)
  | .Playlist (some entries) =>
      let pe := pushEntries url gr.1 entries
      (pe.2, Registry.insert gr.2 guild_id pe.1)
  | .SingleVideo none => (.error (.Ytdl url), gr.2)
  | .SingleVideo (some u) =>
      (.ok (), Registry.insert gr.2 guild_id
        { gr.1 with queue := gr.1.queue ++ [Song.mk u] })

/-- Function `InternalHandler::check_guild_queue` (bot.rs lines 279-325): the advance
protocol.  Looks up the guild (`NoChannel` if absent); if nothing is playing,
pops the queue head and joins/streams it (failures leave the popped item
dropped), or — queue empty — leaves the voice channel and removes the entry;
if something is playing, does nothing. -/
def check_guild_queue (eff : Effects) (guilds : Registry) (guild_id : GuildId) :
    Except PlayError Unit × Registry × List Ev :=
  match guilds guild_id with
  | none => (.error .NoChannel, guilds, [])
  | some guild =>
    match guild.now_playing with
    | some _ => (.ok (), guilds, [])
    | none =>
      match guild.queue with
      | [] => (.ok (), Registry.remove guilds guild_id, [.leave guild_id])
      | new :: rest =>
        let guild1 : Guild := { guild with queue := rest }
        let r1 := Registry.insert guilds guild_id guild1
        if eff.joinOk then
          if eff.ffmpegOk then
            if eff.addEventOk then
              (.ok (),
               Registry.insert guilds guild_id
                 { guild1 with handle := some eff.newHandle, now_playing := some new },
               [.join guild_id guild.channel_id, .startStream guild_id new])
            else
              (.error .Unknown, r1,
               [.join guild_id guild.channel_id, .startStream guild_id new])
          else
            (.error .Ffmpeg, r1, [.join guild_id guild.channel_id])
        else
          (.error .Join, r1, [.join guild_id guild.channel_id])

/-- The mutation block of `SongEndHandler::act` (bot.rs lines 339-343):
clear `now_playing` and `handle` if the entry exists. -/
def clear_playing (guilds : Registry) (guild_id : GuildId) : Registry :=
  match guilds guild_id with
  | none => guilds
  | some guild =>
      Registry.insert guilds guild_id { guild with now_playing := none, handle := none }

/-- Callback `SongEndHandler::act` (bot.rs lines 336-352): if the guild is absent the
`?` returns early (no mutation, no advance); otherwise clear the playing
state and re-invoke the advance, discarding its result. -/
def song_end_act (eff : Effects) (guilds : Registry) (guild_id : GuildId) :
    Registry × List Ev :=
  match guilds guild_id with
  | none => (guilds, [])
  | some _ =>
      let out := check_guild_queue eff (clear_playing guilds guild_id) guild_id
      (out.2.1, out.2.2)

/-- Function `Handler::handle_skip` (bot.rs lines 218-241): `BotNotPlaying` when no
entry exists; otherwise stop the active handle if one is set (its failure
surfaces as `Unknown`); never mutates the registry. -/
def handle_skip (stopOk : Bool) (guilds : Registry) (guild_id? : Option GuildId) :
    Except PlayError Unit × Registry × List Ev :=
  match guild_id? with
  | none => (.error .NoGuildId, guilds, [])
  | some guild_id =>
    match guilds guild_id with
    | none => (.error .BotNotPlaying, guilds, [])
    | some guild =>
      match guild.handle with
      | some h =>
          if stopOk then (.ok (), guilds, [.stop h])
          else (.error .Unknown, guilds, [.stop h])
      | none => (.ok (), guilds, [])

/-- Function `Handler::handle_play` (bot.rs lines 139-216): parameter extraction and
resolver outcome, then the enqueue block, then the advance. -/
def handle_play (eff : Effects) (guilds : Registry) (guild_id? : Option GuildId)
    (url? : Option String) (channel? : Option ChannelId)
    (yt : Except PlayError YtdlOutput) : Except PlayError Unit × Registry × List Ev :=
  match guild_id? with
  | none => (.error .NoGuildId, guilds, [])
  | some guild_id =>
    match url? with
    | none => (.error .NoUrl, guilds, [])
    | some url =>
      match channel? with
      | none => (.error .NoChannel, guilds, [])
      | some channel_id =>
        match yt with
        | .error e => (.error e, guilds, [])
        | .ok resp =>
          match play_enqueue guilds guild_id channel_id url resp with
          | (.error e, r1) => (.error e, r1, [])
          | (.ok _, r1) => check_guild_queue eff r1 guild_id

/-- The individual lock-scoped state mutations of the code, as steps: the
play command's enqueue block, one advance invocation, the completion
callback's clearing block, and skip. -/
inductive AtomicStep where
  | enqueue (g : GuildId) (c : ChannelId) (url : String) (yt : YtdlOutput)
  | advance (g : GuildId) (eff : Effects)
  | clearPlaying (g : GuildId)
  | skip (g : GuildId) (stopOk : Bool)

def applyStep (r : Registry) : AtomicStep → Registry
  | .enqueue g c url yt => (play_enqueue r g c url yt).2
  | .advance g eff => (check_guild_queue eff r g).2.1
  | .clearPlaying g => clear_playing r g
  | .skip g stopOk => (handle_skip stopOk r (some g)).2.1

def stepEvents (r : Registry) : AtomicStep → List Ev
  | .enqueue _ _ _ _ => []
  | .advance g eff => (check_guild_queue eff r g).2.2
  | .clearPlaying _ => []
  | .skip g stopOk => (handle_skip stopOk r (some g)).2.2

def runSteps (steps : List AtomicStep) : Registry :=
  steps.foldl applyStep emptyRegistry

/-- The songs started for room `g` in a transport-event list. -/
def startedIn (g : GuildId) (evs : List Ev) : List Song :=
  evs.filterMap fun e =>
    match e with
    | .startStream g' s => if g' = g then some s else none
    | _ => none

/-- Repeatedly advance and complete room `g`, collecting the songs started,
for `fuel` rounds. -/
def drainPlayed (eff : Effects) (g : GuildId) : Nat → Registry → List Song
  | 0, _ => []
  | fuel + 1, r =>
      let out := check_guild_queue eff r g
      startedIn g out.2.2 ++ drainPlayed eff g fuel (clear_playing out.2.1 g)

/-! The paired-transition invariant. -/

/-- Invariant of the spec: `activeHandle.isSome == nowPlaying.isSome`. -/
def GuildInv (gd : Guild) : Prop := gd.handle.isSome = gd.now_playing.isSome

def RegInv (r : Registry) : Prop := ∀ g gd, r g = some gd → GuildInv gd

/-! Helper characterizations. -/

/-- The urls of the playlist entries strictly before the first entry whose
url is missing (all entries, when none is missing). -/
def urlsBeforeMissing : List (Option String) → List String
  | [] => []
  | none :: _ => []
  | some u :: rest => u :: urlsBeforeMissing rest

/-- Whether some playlist entry lacks a url. -/
def anyMissing : List (Option String) → Bool
  | [] => false
  | none :: _ => true
  | some _ :: rest => anyMissing rest

/-- The guild value `get_guild` hands back: relocated to the new channel if
present, freshly created otherwise. -/
def relocated (gd? : Option Guild) (c : ChannelId) : Guild :=
  match gd? with
  | some gd => { gd with channel_id := c }
  | none => Guild.new c

theorem Registry.insert_self (r : Registry) (g : GuildId) (gd : Guild) :
    Registry.insert r g gd g = some gd := by
  simp [Registry.insert]

theorem Registry.insert_other (r : Registry) (g g' : GuildId) (gd : Guild) (h : g' ≠ g) :
    Registry.insert r g gd g' = r g' := by
  simp [Registry.insert, h]

theorem Registry.remove_self (r : Registry) (g : GuildId) :
    Registry.remove r g g = none := by
  simp [Registry.remove]

theorem Registry.remove_other (r : Registry) (g g' : GuildId) (h : g' ≠ g) :
    Registry.remove r g g' = r g' := by
  simp [Registry.remove, h]

theorem Registry.insert_insert (r : Registry) (g : GuildId) (a b : Guild) :
    Registry.insert (Registry.insert r g a) g b = Registry.insert r g b := by
  funext g'
  by_cases h : g' = g <;> simp [Registry.insert, h]

theorem get_guild_eq (r : Registry) (g : GuildId) (c : ChannelId) :
    get_guild r g c = (relocated (r g) c, Registry.insert r g (relocated (r g) c)) := by
  cases hrg : r g <;> simp [get_guild, relocated, hrg]

theorem pushEntries_eq (url : String) (entries : List (Option String)) :
    ∀ guild : Guild,
      pushEntries url guild entries =
        ({ guild with queue := guild.queue ++ (urlsBeforeMissing entries).map Song.mk },
         if anyMissing entries then .error (.Ytdl url) else .ok ()) := by
  induction entries with
  | nil => intro guild; simp [pushEntries, urlsBeforeMissing, anyMissing]
  | cons e rest ih =>
    intro guild
    cases e with
    | none => simp [pushEntries, urlsBeforeMissing, anyMissing]
    | some u => simp [pushEntries, urlsBeforeMissing, anyMissing, ih]

theorem urlsBeforeMissing_all_some (urls : List String) :
    urlsBeforeMissing (urls.map some) = urls := by
  induction urls with
  | nil => rfl
  | cons u rest ih => simp [urlsBeforeMissing, ih]

theorem anyMissing_all_some (urls : List String) :
    anyMissing (urls.map some) = false := by
  induction urls with
  | nil => rfl
  | cons u rest ih => simp [anyMissing, ih]

theorem urlsBeforeMissing_stops (urls : List String) (rest : List (Option String)) :
    urlsBeforeMissing (urls.map some ++ none :: rest) = urls := by
  induction urls with
  | nil => rfl
  | cons u us ih => simp [urlsBeforeMissing, ih]

theorem anyMissing_stops (urls : List String) (rest : List (Option String)) :
    anyMissing (urls.map some ++ none :: rest) = true := by
  induction urls with
  | nil => rfl
  | cons u us ih => simp [anyMissing, ih]

/-- Full characterization of the enqueue block in terms of the initial
registry contents. -/
theorem play_enqueue_eq (r : Registry) (g : GuildId) (c : ChannelId) (url : String)
    (resp : YtdlOutput) :
    play_enqueue r g c url resp =
      match resp with
      | .Playlist none => (.error (.Ytdl url), Registry.insert r g (relocated (r g) c))
      | .Playlist (some entries) =>
          ((if anyMissing entries then .error (.Ytdl url) else .ok ()),
           Registry.insert r g
             { relocated (r g) c with
                 queue := (relocated (r g) c).queue ++ (urlsBeforeMissing entries).map Song.mk })
      | .SingleVideo none => (.error (.Ytdl url), Registry.insert r g (relocated (r g) c))
      | .SingleVideo (some u) =>
          (.ok (), Registry.insert r g
             { relocated (r g) c with queue := (relocated (r g) c).queue ++ [Song.mk u] }) := by
  cases resp with
  | Playlist entries =>
    cases entries with
    | none => simp [play_enqueue, get_guild_eq]
    | some es => simp [play_enqueue, get_guild_eq, pushEntries_eq, Registry.insert_insert]
  | SingleVideo u =>
    cases u with
    | none => simp [play_enqueue, get_guild_eq]
    | some u => simp [play_enqueue, get_guild_eq, Registry.insert_insert]

/-! Branch lemmas for the advance protocol. -/

theorem check_missing (eff : Effects) (r : Registry) (g : GuildId) (hg : r g = none) :
    check_guild_queue eff r g = (.error .NoChannel, r, []) := by
  simp [check_guild_queue, hg]

theorem check_busy (eff : Effects) (r : Registry) (g : GuildId) (gd : Guild) (s : Song)
    (hg : r g = some gd) (hnp : gd.now_playing = some s) :
    check_guild_queue eff r g = (.ok (), r, []) := by
  simp [check_guild_queue, hg, hnp]

theorem check_empty_removes (eff : Effects) (r : Registry) (g : GuildId) (gd : Guild)
    (hg : r g = some gd) (hnp : gd.now_playing = none) (hq : gd.queue = []) :
    check_guild_queue eff r g = (.ok (), Registry.remove r g, [.leave g]) := by
  simp [check_guild_queue, hg, hnp, hq]

theorem check_starts (eff : Effects) (r : Registry) (g : GuildId) (gd : Guild)
    (x : Song) (rest : List Song) (hg : r g = some gd) (hnp : gd.now_playing = none)
    (hq : gd.queue = x :: rest) (hj : eff.joinOk = true) (hf : eff.ffmpegOk = true)
    (ha : eff.addEventOk = true) :
    check_guild_queue eff r g =
      (.ok (),
       Registry.insert r g
         { gd with handle := some eff.newHandle, now_playing := some x, queue := rest },
       [.join g gd.channel_id, .startStream g x]) := by
  simp [check_guild_queue, hg, hnp, hq, hj, hf, ha]

theorem check_join_fails (eff : Effects) (r : Registry) (g : GuildId) (gd : Guild)
    (x : Song) (rest : List Song) (hg : r g = some gd) (hnp : gd.now_playing = none)
    (hq : gd.queue = x :: rest) (hj : eff.joinOk = false) :
    check_guild_queue eff r g =
      (.error .Join, Registry.insert r g { gd with queue := rest },
       [.join g gd.channel_id]) := by
  simp [check_guild_queue, hg, hnp, hq, hj]

theorem check_ffmpeg_fails (eff : Effects) (r : Registry) (g : GuildId) (gd : Guild)
    (x : Song) (rest : List Song) (hg : r g = some gd) (hnp : gd.now_playing = none)
    (hq : gd.queue = x :: rest) (hj : eff.joinOk = true) (hf : eff.ffmpegOk = false) :
    check_guild_queue eff r g =
      (.error .Ffmpeg, Registry.insert r g { gd with queue := rest },
       [.join g gd.channel_id]) := by
  simp [check_guild_queue, hg, hnp, hq, hj, hf]

theorem check_addevent_fails (eff : Effects) (r : Registry) (g : GuildId) (gd : Guild)
    (x : Song) (rest : List Song) (hg : r g = some gd) (hnp : gd.now_playing = none)
    (hq : gd.queue = x :: rest) (hj : eff.joinOk = true) (hf : eff.ffmpegOk = true)
    (ha : eff.addEventOk = false) :
    check_guild_queue eff r g =
      (.error .Unknown, Registry.insert r g { gd with queue := rest },
       [.join g gd.channel_id, .startStream g x]) := by
  simp [check_guild_queue, hg, hnp, hq, hj, hf, ha]

/-- State-only case split for one advance invocation. -/
theorem check_cases (eff : Effects) (r : Registry) (g : GuildId) :
    (check_guild_queue eff r g).2.1 = r ∨
    (∃ gd, r g = some gd ∧ gd.now_playing = none ∧ gd.queue = [] ∧
       (check_guild_queue eff r g).2.1 = Registry.remove r g) ∨
    (∃ gd x rest, r g = some gd ∧ gd.now_playing = none ∧ gd.queue = x :: rest ∧
       ((check_guild_queue eff r g).2.1 = Registry.insert r g { gd with queue := rest } ∨
        (check_guild_queue eff r g).2.1 =
          Registry.insert r g
            { gd with handle := some eff.newHandle, now_playing := some x, queue := rest })) := by
  cases hrg : r g with
  | none => exact Or.inl (by rw [check_missing eff r g hrg])
  | some gd =>
    cases hnp : gd.now_playing with
    | some s => exact Or.inl (by rw [check_busy eff r g gd s hrg hnp])
    | none =>
      cases hq : gd.queue with
      | nil =>
        exact Or.inr (Or.inl ⟨gd, rfl, hnp, hq, by rw [check_empty_removes eff r g gd hrg hnp hq]⟩)
      | cons x rest =>
        refine Or.inr (Or.inr ⟨gd, x, rest, rfl, hnp, hq, ?_⟩)
        by_cases hj : eff.joinOk
        · by_cases hf : eff.ffmpegOk
          · by_cases ha : eff.addEventOk
            · exact Or.inr (by rw [check_starts eff r g gd x rest hrg hnp hq hj hf ha])
            · exact Or.inl (by rw [check_addevent_fails eff r g gd x rest hrg hnp hq hj hf
                (Bool.not_eq_true _ ▸ ha)])
          · exact Or.inl (by rw [check_ffmpeg_fails eff r g gd x rest hrg hnp hq hj
              (Bool.not_eq_true _ ▸ hf)])
        · exact Or.inl (by rw [check_join_fails eff r g gd x rest hrg hnp hq
            (Bool.not_eq_true _ ▸ hj)])

/-- An advance invocation for one room leaves every other room untouched. -/
theorem check_state_other (eff : Effects) (r : Registry) (g g' : GuildId) (h : g' ≠ g) :
    (check_guild_queue eff r g).2.1 g' = r g' := by
  rcases check_cases eff r g with hc | ⟨gd, _, _, _, hc⟩ | ⟨gd, x, rest, _, _, _, hc | hc⟩ <;>
    rw [hc] <;>
    simp [Registry.remove_other _ _ _ h, Registry.insert_other _ _ _ _ h]

/-- A `startStream` transport call during an advance is always for the
advanced room, and only happens when nothing was playing, with the popped
queue head as its song. -/
theorem check_events_start (eff : Effects) (r : Registry) (g g' : GuildId) (s : Song)
    (hmem : Ev.startStream g' s ∈ (check_guild_queue eff r g).2.2) :
    g' = g ∧ ∃ gd rest, r g = some gd ∧ gd.now_playing = none ∧ gd.queue = s :: rest := by
  cases hrg : r g with
  | none => rw [check_missing eff r g hrg] at hmem; simp at hmem
  | some gd =>
    cases hnp : gd.now_playing with
    | some t => rw [check_busy eff r g gd t hrg hnp] at hmem; simp at hmem
    | none =>
      cases hq : gd.queue with
      | nil => rw [check_empty_removes eff r g gd hrg hnp hq] at hmem; simp at hmem
      | cons x rest =>
        by_cases hj : eff.joinOk
        · by_cases hf : eff.ffmpegOk
          · by_cases ha : eff.addEventOk
            · rw [check_starts eff r g gd x rest hrg hnp hq hj hf ha] at hmem
              simp at hmem
              exact ⟨hmem.1, gd, rest, rfl, hnp, by simp [hq, hmem.2]⟩
            · rw [check_addevent_fails eff r g gd x rest hrg hnp hq hj hf
                (Bool.not_eq_true _ ▸ ha)] at hmem
              simp at hmem
              exact ⟨hmem.1, gd, rest, rfl, hnp, by simp [hq, hmem.2]⟩
          · rw [check_ffmpeg_fails eff r g gd x rest hrg hnp hq hj
              (Bool.not_eq_true _ ▸ hf)] at hmem
            simp at hmem
        · rw [check_join_fails eff r g gd x rest hrg hnp hq (Bool.not_eq_true _ ▸ hj)] at hmem
          simp at hmem

/-- The advance protocol never calls `stop`. -/
theorem check_events_no_stop (eff : Effects) (r : Registry) (g : GuildId) (h : TrackHandle) :
    Ev.stop h ∉ (check_guild_queue eff r g).2.2 := by
  cases hrg : r g with
  | none => rw [check_missing eff r g hrg]; simp
  | some gd =>
    cases hnp : gd.now_playing with
    | some t => rw [check_busy eff r g gd t hrg hnp]; simp
    | none =>
      cases hq : gd.queue with
      | nil => rw [check_empty_removes eff r g gd hrg hnp hq]; simp
      | cons x rest =>
        by_cases hj : eff.joinOk
        · by_cases hf : eff.ffmpegOk
          · by_cases ha : eff.addEventOk
            · rw [check_starts eff r g gd x rest hrg hnp hq hj hf ha]; simp
            · rw [check_addevent_fails eff r g gd x rest hrg hnp hq hj hf
                (Bool.not_eq_true _ ▸ ha)]; simp
          · rw [check_ffmpeg_fails eff r g gd x rest hrg hnp hq hj
              (Bool.not_eq_true _ ▸ hf)]; simp
        · rw [check_join_fails eff r g gd x rest hrg hnp hq (Bool.not_eq_true _ ▸ hj)]; simp

/-! State lemmas for the other operations. -/

theorem clear_missing (r : Registry) (g : GuildId) (hg : r g = none) :
    clear_playing r g = r := by
  simp [clear_playing, hg]

theorem clear_present (r : Registry) (g : GuildId) (gd : Guild) (hg : r g = some gd) :
    clear_playing r g =
      Registry.insert r g { gd with now_playing := none, handle := none } := by
  simp [clear_playing, hg]

theorem clear_state_other (r : Registry) (g g' : GuildId) (h : g' ≠ g) :
    clear_playing r g g' = r g' := by
  cases hrg : r g with
  | none => rw [clear_missing r g hrg]
  | some gd => rw [clear_present r g gd hrg, Registry.insert_other _ _ _ _ h]

/-- The skip command never mutates the registry. -/
theorem handle_skip_state (stopOk : Bool) (r : Registry) (gid? : Option GuildId) :
    (handle_skip stopOk r gid?).2.1 = r := by
  cases gid? with
  | none => rfl
  | some g =>
    cases hrg : r g with
    | none => simp [handle_skip, hrg]
    | some gd =>
      cases hh : gd.handle with
      | none => simp [handle_skip, hrg, hh]
      | some h => by_cases hs : stopOk <;> simp [handle_skip, hrg, hh, hs]

/-- The skip command's only possible transport call is a `stop`. -/
theorem handle_skip_events (stopOk : Bool) (r : Registry) (gid? : Option GuildId) :
    (handle_skip stopOk r gid?).2.2 = [] ∨
    ∃ h, (handle_skip stopOk r gid?).2.2 = [Ev.stop h] := by
  cases gid? with
  | none => exact Or.inl rfl
  | some g =>
    cases hrg : r g with
    | none => exact Or.inl (by simp [handle_skip, hrg])
    | some gd =>
      cases hh : gd.handle with
      | none => exact Or.inl (by simp [handle_skip, hrg, hh])
      | some h =>
        exact Or.inr ⟨h, by by_cases hs : stopOk <;> simp [handle_skip, hrg, hh, hs]⟩

/-- The enqueue block leaves every other room untouched. -/
theorem play_enqueue_state_other (r : Registry) (g : GuildId) (c : ChannelId)
    (url : String) (resp : YtdlOutput) (g' : GuildId) (h : g' ≠ g) :
    (play_enqueue r g c url resp).2 g' = r g' := by
  rw [play_enqueue_eq]
  cases resp with
  | Playlist entries => cases entries <;> simp [Registry.insert_other _ _ _ _ h]
  | SingleVideo u => cases u <;> simp [Registry.insert_other _ _ _ _ h]

/-- After the enqueue block the target room exists, relocated to the request
channel, with some suffix appended to its queue and all other fields kept. -/
theorem play_enqueue_state_self (r : Registry) (g : GuildId) (c : ChannelId)
    (url : String) (resp : YtdlOutput) :
    ∃ tail, (play_enqueue r g c url resp).2 g =
      some { relocated (r g) c with queue := (relocated (r g) c).queue ++ tail } := by
  rw [play_enqueue_eq]
  cases resp with
  | Playlist entries =>
    cases entries with
    | none => exact ⟨[], by simp [Registry.insert_self]⟩
    | some es => exact ⟨(urlsBeforeMissing es).map Song.mk, by simp [Registry.insert_self]⟩
  | SingleVideo u =>
    cases u with
    | none => exact ⟨[], by simp [Registry.insert_self]⟩
    | some u => exact ⟨[Song.mk u], by simp [Registry.insert_self]⟩

theorem regInv_empty : RegInv emptyRegistry := by
  intro g gd h
  simp [emptyRegistry] at h

theorem regInv_step (r : Registry) (s : AtomicStep) (hr : RegInv r) :
    RegInv (applyStep r s) := by
  cases s with
  | enqueue g c url yt =>
    intro g' gd' hg'
    simp only [applyStep] at hg'
    by_cases h : g' = g
    · subst h
      obtain ⟨tail, ht⟩ := play_enqueue_state_self r g' c url yt
      rw [ht] at hg'
      injection hg' with hgd
      subst hgd
      cases hrg : r g' with
      | none => simp [GuildInv, relocated, hrg, Guild.new]
      | some gd0 =>
        have h0 := hr g' gd0 hrg
        simpa [GuildInv, relocated, hrg] using h0
    · rw [play_enqueue_state_other r g c url yt g' h] at hg'
      exact hr g' gd' hg'
  | advance g eff =>
    intro g' gd' hg'
    simp only [applyStep] at hg'
    rcases check_cases eff r g with hc | ⟨gd, hrg, hnp, hq, hc⟩ |
      ⟨gd, x, rest, hrg, hnp, hq, hc | hc⟩ <;> rw [hc] at hg'
    · exact hr g' gd' hg'
    · by_cases h : g' = g
      · subst h; rw [Registry.remove_self] at hg'; cases hg'
      · rw [Registry.remove_other _ _ _ h] at hg'; exact hr g' gd' hg'
    · by_cases h : g' = g
      · subst h
        rw [Registry.insert_self] at hg'
        injection hg' with hgd
        subst hgd
        have hh : gd.handle = none := by
          have h0 := hr g' gd hrg
          unfold GuildInv at h0
          rw [hnp] at h0
          cases hhd : gd.handle with
          | none => rfl
          | some t => rw [hhd] at h0; simp at h0
        simp [GuildInv, hh, hnp]
      · rw [Registry.insert_other _ _ _ _ h] at hg'; exact hr g' gd' hg'
    · by_cases h : g' = g
      · subst h
        rw [Registry.insert_self] at hg'
        injection hg' with hgd
        subst hgd
        simp [GuildInv]
      · rw [Registry.insert_other _ _ _ _ h] at hg'; exact hr g' gd' hg'
  | clearPlaying g =>
    intro g' gd' hg'
    simp only [applyStep] at hg'
    cases hrg : r g with
    | none => rw [clear_missing r g hrg] at hg'; exact hr g' gd' hg'
    | some gd =>
      rw [clear_present r g gd hrg] at hg'
      by_cases h : g' = g
      · subst h
        rw [Registry.insert_self] at hg'
        injection hg' with hgd
        subst hgd
        simp [GuildInv]
      · rw [Registry.insert_other _ _ _ _ h] at hg'; exact hr g' gd' hg'
  | skip g stopOk =>
    intro g' gd' hg'
    simp only [applyStep] at hg'
    rw [handle_skip_state] at hg'
    exact hr g' gd' hg'

theorem regInv_runSteps (steps : List AtomicStep) : RegInv (runSteps steps) := by
  suffices hgen : ∀ r, RegInv r → RegInv (steps.foldl applyStep r) by
    exact hgen emptyRegistry regInv_empty
  induction steps with
  | nil => intro r hr; exact hr
  | cons s ss ih => intro r hr; exact ih _ (regInv_step r s hr)

/-! Drain order. -/

theorem drain_missing (eff : Effects) (g : GuildId) :
    ∀ (fuel : Nat) (r : Registry), r g = none → drainPlayed eff g fuel r = [] := by
  intro fuel
  induction fuel with
  | zero => intro r _; rfl
  | succ n ih =>
    intro r hg
    simp only [drainPlayed]
    rw [check_missing eff r g hg]
    simp only [startedIn, List.filterMap_nil, List.nil_append]
    rw [clear_missing r g hg]
    exact ih r hg

/-- With an all-success oracle, repeatedly advancing and completing a room
that starts idle plays exactly its queue, in order. -/
theorem drainPlayed_order (eff : Effects) (g : GuildId)
    (hj : eff.joinOk = true) (hf : eff.ffmpegOk = true) (ha : eff.addEventOk = true) :
    ∀ (q : List Song) (extra : Nat) (r : Registry) (gd : Guild),
      r g = some gd → gd.now_playing = none → gd.queue = q →
      drainPlayed eff g (q.length + (extra + 1)) r = q := by
  intro q
  induction q with
  | nil =>
    intro extra r gd hg hnp hq
    simp only [List.length_nil, Nat.zero_add]
    simp only [drainPlayed]
    rw [check_empty_removes eff r g gd hg hnp hq]
    simp only [startedIn, List.filterMap_cons, List.filterMap_nil]
    rw [clear_missing _ g (Registry.remove_self r g)]
    simpa using drain_missing eff g extra _ (Registry.remove_self r g)
  | cons x xs ih =>
    intro extra r gd hg hnp hq
    have hlen : (x :: xs).length + (extra + 1) = (xs.length + (extra + 1)) + 1 := by
      simp only [List.length_cons]
      omega
    rw [hlen]
    simp only [drainPlayed]
    rw [check_starts eff r g gd x xs hg hnp hq hj hf ha]
    have hc : clear_playing (Registry.insert r g
        { gd with handle := some eff.newHandle, now_playing := some x, queue := xs }) g =
        Registry.insert r g { gd with handle := none, now_playing := none, queue := xs } := by
      rw [clear_present _ g _ (Registry.insert_self _ _ _), Registry.insert_insert]
    show startedIn g [Ev.join g gd.channel_id, Ev.startStream g x] ++
        drainPlayed eff g (xs.length + (extra + 1))
          (clear_playing (Registry.insert r g
            { gd with handle := some eff.newHandle, now_playing := some x, queue := xs }) g) =
        x :: xs
    rw [hc, ih extra _ _ (Registry.insert_self _ _ _) rfl rfl]
    simp [startedIn]

/-! Claims. -/

/-- C8: a completion callback that fires after its room has been removed
from the registry is a no-op: `SongEndHandler::act` checks existence,
returns the registry unchanged, makes no transport calls, and does not
re-invoke the advance with any effect. -/
theorem C8_completion_after_teardown (eff : Effects) (r : Registry) (g : GuildId)
    (hg : r g = none) : song_end_act eff r g = (r, []) := by
  simp [song_end_act, hg]

theorem C8_completion_after_teardown_witness :
    song_end_act ⟨true, true, true, 0⟩ emptyRegistry 0 = (emptyRegistry, []) :=
  C8_completion_after_teardown ⟨true, true, true, 0⟩ emptyRegistry 0 rfl

/-- C10: invoking the advance protocol for a room id with no registry entry
returns the no-channel error and mutates no state, unlike the completion
callback, which silently ignores a missing room. -/
theorem C10_advance_missing_room (eff : Effects) (r : Registry) (g : GuildId)
    (hg : r g = none) :
    check_guild_queue eff r g = (.error .NoChannel, r, []) ∧
    song_end_act eff r g = (r, []) := by
  exact ⟨check_missing eff r g hg, by simp [song_end_act, hg]⟩

theorem C10_advance_missing_room_witness :
    check_guild_queue ⟨true, true, true, 0⟩ emptyRegistry 3 =
      (.error .NoChannel, emptyRegistry, []) ∧
    song_end_act ⟨true, true, true, 0⟩ emptyRegistry 3 = (emptyRegistry, []) :=
  C10_advance_missing_room ⟨true, true, true, 0⟩ emptyRegistry 3 rfl

/-- C9: when an advance pops an item and the join (resp. stream start)
fails, it returns the `Join` (resp. `Ffmpeg`) error, the room stays idle
(`now_playing` and `handle` both `none`), the popped item is dropped, and
the rest of the pending queue is unchanged. -/
theorem C9_advance_failure_drops_item (eff : Effects) (r : Registry) (g : GuildId)
    (gd : Guild) (x : Song) (rest : List Song) (hg : r g = some gd)
    (hnp : gd.now_playing = none) (hh : gd.handle = none) (hq : gd.queue = x :: rest) :
    (eff.joinOk = false →
       check_guild_queue eff r g =
         (.error .Join, Registry.insert r g { gd with queue := rest },
          [.join g gd.channel_id]) ∧
       ({ gd with queue := rest }).now_playing = none ∧
       ({ gd with queue := rest }).handle = none) ∧
    (eff.joinOk = true → eff.ffmpegOk = false →
       check_guild_queue eff r g =
         (.error .Ffmpeg, Registry.insert r g { gd with queue := rest },
          [.join g gd.channel_id]) ∧
       ({ gd with queue := rest }).now_playing = none ∧
       ({ gd with queue := rest }).handle = none) := by
  constructor
  · intro hj
    exact ⟨check_join_fails eff r g gd x rest hg hnp hq hj, hnp, hh⟩
  · intro hj hf
    exact ⟨check_ffmpeg_fails eff r g gd x rest hg hnp hq hj hf, hnp, hh⟩

theorem C9_advance_failure_drops_item_witness :
    check_guild_queue ⟨false, true, true, 0⟩
        (fun n => if n = 0 then some ⟨1, none, none, [Song.mk "a", Song.mk "b"]⟩ else none) 0 =
      (.error .Join,
       Registry.insert
         (fun n => if n = 0 then some ⟨1, none, none, [Song.mk "a", Song.mk "b"]⟩ else none) 0
         ⟨1, none, none, [Song.mk "b"]⟩,
       [.join 0 1]) ∧
    (⟨1, none, none, [Song.mk "b"]⟩ : Guild).now_playing = none ∧
    (⟨1, none, none, [Song.mk "b"]⟩ : Guild).handle = none :=
  (C9_advance_failure_drops_item ⟨false, true, true, 0⟩
    (fun n => if n = 0 then some ⟨1, none, none, [Song.mk "a", Song.mk "b"]⟩ else none) 0
    ⟨1, none, none, [Song.mk "a", Song.mk "b"]⟩ (Song.mk "a") [Song.mk "b"]
    rfl rfl rfl rfl).1 rfl

/-- C3: a room's entry is removed exactly when an advance finds both
`now_playing` and the queue empty; that advance emits the leave-channel
transport call and a subsequent lookup returns absent; no other step ever
removes an existing entry. -/
theorem C3_drain_removes_room (r : Registry) (g : GuildId) (gd : Guild)
    (hg : r g = some gd) :
    (gd.now_playing = none → gd.queue = [] →
       ∀ eff, check_guild_queue eff r g = (.ok (), Registry.remove r g, [Ev.leave g]) ∧
         (check_guild_queue eff r g).2.1 g = none) ∧
    (∀ s : AtomicStep, applyStep r s g = none →
       ∃ eff, s = AtomicStep.advance g eff ∧ gd.now_playing = none ∧ gd.queue = []) := by
  constructor
  · intro hnp hq eff
    refine ⟨check_empty_removes eff r g gd hg hnp hq, ?_⟩
    rw [check_empty_removes eff r g gd hg hnp hq]
    exact Registry.remove_self r g
  · intro s habs
    cases s with
    | enqueue g2 c url yt =>
      exfalso
      simp only [applyStep] at habs
      by_cases h : g = g2
      · subst h
        obtain ⟨tail, ht⟩ := play_enqueue_state_self r g c url yt
        rw [ht] at habs
        simp at habs
      · rw [play_enqueue_state_other r g2 c url yt g h, hg] at habs
        simp at habs
    | advance g2 eff =>
      simp only [applyStep] at habs
      by_cases h : g = g2
      · subst h
        rcases check_cases eff r g with hc | ⟨gd2, hrg2, hnp2, hq2, hc⟩ |
          ⟨gd2, x, rest, hrg2, hnp2, hq2, hc | hc⟩
        · exfalso; rw [hc, hg] at habs; simp at habs
        · rw [hg] at hrg2
          injection hrg2 with h2
          subst h2
          exact ⟨eff, rfl, hnp2, hq2⟩
        · exfalso; rw [hc, Registry.insert_self] at habs; simp at habs
        · exfalso; rw [hc, Registry.insert_self] at habs; simp at habs
      · exfalso
        rw [check_state_other eff r g2 g h, hg] at habs
        simp at habs
    | clearPlaying g2 =>
      exfalso
      simp only [applyStep] at habs
      by_cases h : g = g2
      · subst h
        rw [clear_present r g gd hg, Registry.insert_self] at habs
        simp at habs
      · rw [clear_state_other r g2 g h, hg] at habs
        simp at habs
    | skip g2 stopOk =>
      exfalso
      simp only [applyStep] at habs
      rw [handle_skip_state, hg] at habs
      simp at habs

theorem C3_drain_removes_room_witness :
    check_guild_queue ⟨true, true, true, 0⟩
        (fun n => if n = 0 then some ⟨1, none, none, []⟩ else none) 0 =
      (.ok (),
       Registry.remove (fun n => if n = 0 then some ⟨1, none, none, []⟩ else none) 0,
       [Ev.leave 0]) ∧
    (check_guild_queue ⟨true, true, true, 0⟩
        (fun n => if n = 0 then some ⟨1, none, none, []⟩ else none) 0).2.1 0 = none :=
  (C3_drain_removes_room (fun n => if n = 0 then some ⟨1, none, none, []⟩ else none) 0
    ⟨1, none, none, []⟩ rfl).1 rfl rfl ⟨true, true, true, 0⟩

/-- C1: `now_playing` never transitions from one `some` directly to a fresh
playback: an advance invocation that finds `now_playing` set is a complete
no-op, every atomic step either keeps the current song or clears it, and no
step makes a `startStream` transport call for a room whose `now_playing` is
set. -/
theorem C1_mutual_exclusion (r : Registry) (g : GuildId) (gd : Guild) (song : Song)
    (hg : r g = some gd) (hp : gd.now_playing = some song) :
    (∀ eff, check_guild_queue eff r g = (.ok (), r, [])) ∧
    (∀ s : AtomicStep, ∃ gd', applyStep r s g = some gd' ∧
        (gd'.now_playing = some song ∨ gd'.now_playing = none)) ∧
    (∀ (s : AtomicStep) (s' : Song), Ev.startStream g s' ∉ stepEvents r s) := by
  refine ⟨fun eff => check_busy eff r g gd song hg hp, ?_, ?_⟩
  · intro s
    cases s with
    | enqueue g2 c url yt =>
      simp only [applyStep]
      by_cases h : g = g2
      · subst h
        obtain ⟨tail, ht⟩ := play_enqueue_state_self r g c url yt
        refine ⟨_, ht, Or.inl ?_⟩
        simp [relocated, hg, hp]
      · rw [play_enqueue_state_other r g2 c url yt g h]
        exact ⟨gd, hg, Or.inl hp⟩
    | advance g2 eff =>
      simp only [applyStep]
      by_cases h : g = g2
      · subst h
        rw [check_busy eff r g gd song hg hp]
        exact ⟨gd, hg, Or.inl hp⟩
      · rw [check_state_other eff r g2 g h]
        exact ⟨gd, hg, Or.inl hp⟩
    | clearPlaying g2 =>
      simp only [applyStep]
      by_cases h : g = g2
      · subst h
        rw [clear_present r g gd hg, Registry.insert_self]
        exact ⟨_, rfl, Or.inr rfl⟩
      · rw [clear_state_other r g2 g h]
        exact ⟨gd, hg, Or.inl hp⟩
    | skip g2 stopOk =>
      simp only [applyStep]
      rw [handle_skip_state]
      exact ⟨gd, hg, Or.inl hp⟩
  · intro s s' hmem
    cases s with
    | enqueue g2 c url yt => simp [stepEvents] at hmem
    | advance g2 eff =>
      simp only [stepEvents] at hmem
      obtain ⟨heq, gd2, rest, hg2, hnp2, hq2⟩ := check_events_start eff r g2 g s' hmem
      subst heq
      rw [hg] at hg2
      injection hg2 with h2
      subst h2
      rw [hp] at hnp2
      exact Option.some_ne_none song hnp2
    | clearPlaying g2 => simp [stepEvents] at hmem
    | skip g2 stopOk =>
      simp only [stepEvents] at hmem
      rcases handle_skip_events stopOk r (some g2) with he | ⟨h, he⟩ <;>
        rw [he] at hmem <;> simp at hmem

theorem C1_mutual_exclusion_witness :
    check_guild_queue ⟨true, true, true, 5⟩
        (fun n => if n = 0 then some ⟨1, some 7, some (Song.mk "a"), []⟩ else none) 0 =
      (.ok (), (fun n => if n = 0 then some ⟨1, some 7, some (Song.mk "a"), []⟩ else none),
       []) :=
  (C1_mutual_exclusion
    (fun n => if n = 0 then some ⟨1, some 7, some (Song.mk "a"), []⟩ else none) 0
    ⟨1, some 7, some (Song.mk "a"), []⟩ (Song.mk "a") rfl rfl).1 ⟨true, true, true, 5⟩

/-- C4: in every registry reachable from the empty registry by any sequence
of the room operations, every room satisfies
`handle.isSome = now_playing.isSome`: each operation sets both or clears
both. -/
theorem C4_handle_iff_now_playing :
    ∀ (steps : List AtomicStep) (g : GuildId) (gd : Guild),
      runSteps steps g = some gd → gd.handle.isSome = gd.now_playing.isSome := by
  intro steps g gd hg
  exact regInv_runSteps steps g gd hg

theorem C4_handle_iff_now_playing_witness :
    (⟨1, none, none, [Song.mk "a"]⟩ : Guild).handle.isSome =
      (⟨1, none, none, [Song.mk "a"]⟩ : Guild).now_playing.isSome :=
  C4_handle_iff_now_playing [.enqueue 0 1 "u" (.SingleVideo (some "a"))] 0
    ⟨1, none, none, [Song.mk "a"]⟩ (by decide)

theorem play_enqueue_all_some (r : Registry) (g : GuildId) (c : ChannelId) (u : String)
    (urls : List String) :
    play_enqueue r g c u (.Playlist (some (urls.map some))) =
      (.ok (), Registry.insert r g
        { relocated (r g) c with
            queue := (relocated (r g) c).queue ++ urls.map Song.mk }) := by
  rw [play_enqueue_eq]
  simp [anyMissing_all_some, urlsBeforeMissing_all_some]

theorem play_enqueue_existing_all_some (r : Registry) (g : GuildId) (c : ChannelId)
    (u : String) (urls : List String) (gd : Guild) (hg : r g = some gd) :
    (play_enqueue r g c u (.Playlist (some (urls.map some)))).2 =
      Registry.insert r g
        { gd with channel_id := c, queue := gd.queue ++ urls.map Song.mk } := by
  rw [play_enqueue_all_some]
  simp [relocated, hg]

/-- C2: the pending queue is FIFO — two successive enqueue calls append
their items at the tail in resolver order, an advance removes exactly the
head and starts it, and draining a room plays exactly its queue in order,
so items of an earlier enqueue all play before items of a later one. -/
theorem C2_fifo_order :
    (∀ (r : Registry) (g : GuildId) (gd : Guild) (c₁ c₂ : ChannelId) (u₁ u₂ : String)
        (urls₁ urls₂ : List String), r g = some gd →
       ∃ gd₂,
         (play_enqueue (play_enqueue r g c₁ u₁ (.Playlist (some (urls₁.map some)))).2
             g c₂ u₂ (.Playlist (some (urls₂.map some)))).2 g = some gd₂ ∧
         gd₂.queue = gd.queue ++ urls₁.map Song.mk ++ urls₂.map Song.mk ∧
         gd₂.now_playing = gd.now_playing) ∧
    (∀ (eff : Effects) (r : Registry) (g : GuildId) (gd : Guild) (x : Song)
        (rest : List Song), r g = some gd → gd.now_playing = none →
       gd.queue = x :: rest → eff.joinOk = true → eff.ffmpegOk = true →
       eff.addEventOk = true →
       check_guild_queue eff r g =
         (.ok (), Registry.insert r g
            { gd with handle := some eff.newHandle, now_playing := some x, queue := rest },
          [.join g gd.channel_id, .startStream g x])) ∧
    (∀ (eff : Effects) (r : Registry) (g : GuildId) (gd : Guild) (extra : Nat),
       r g = some gd → gd.now_playing = none →
       eff.joinOk = true → eff.ffmpegOk = true → eff.addEventOk = true →
       drainPlayed eff g (gd.queue.length + (extra + 1)) r = gd.queue) := by
  refine ⟨?_, ?_, ?_⟩
  · intro r g gd c₁ c₂ u₁ u₂ urls₁ urls₂ hg
    rw [play_enqueue_existing_all_some r g c₁ u₁ urls₁ gd hg]
    rw [play_enqueue_existing_all_some _ g c₂ u₂ urls₂ _ (Registry.insert_self _ _ _)]
    refine ⟨⟨c₂, gd.handle, gd.now_playing,
      gd.queue ++ urls₁.map Song.mk ++ urls₂.map Song.mk⟩, ?_, rfl, rfl⟩
    rw [Registry.insert_self]
  · intro eff r g gd x rest hg hnp hq hj hf ha
    exact check_starts eff r g gd x rest hg hnp hq hj hf ha
  · intro eff r g gd extra hg hnp hj hf ha
    exact drainPlayed_order eff g hj hf ha gd.queue extra r gd hg hnp rfl

theorem C2_fifo_order_witness :
    ∃ gd₂, (play_enqueue (play_enqueue
        (fun n => if n = 0 then some ⟨1, none, none, []⟩ else none)
        0 1 "u1" (.Playlist (some [some "a"]))).2
        0 1 "u2" (.Playlist (some [some "b", some "c"]))).2 0 = some gd₂ ∧
      gd₂.queue = [Song.mk "a", Song.mk "b", Song.mk "c"] ∧
      gd₂.now_playing = none :=
  C2_fifo_order.1 (fun n => if n = 0 then some ⟨1, none, none, []⟩ else none)
    0 ⟨1, none, none, []⟩ 1 1 "u1" "u2" ["a"] ["b", "c"] rfl

/-- C5 counterexample: a play request resolving to playlist entries
`[some "a", none, some "b"]` against a room whose queue is `[s0]` fails with
the resolution error, yet leaves the queue as `[s0, a]` — neither unchanged
nor with all resolved items appended. -/
theorem C5_counterexample_partial_append :
    (handle_play ⟨true, true, true, 0⟩
        (fun n => if n = 0 then some ⟨1, none, none, [Song.mk "s0"]⟩ else none)
        (some 0) (some "u") (some 1)
        (.ok (.Playlist (some [some "a", none, some "b"])))).1 = .error (.Ytdl "u") ∧
    (handle_play ⟨true, true, true, 0⟩
        (fun n => if n = 0 then some ⟨1, none, none, [Song.mk "s0"]⟩ else none)
        (some 0) (some "u") (some 1)
        (.ok (.Playlist (some [some "a", none, some "b"])))).2.1 0 =
      some ⟨1, none, none, [Song.mk "s0", Song.mk "a"]⟩ ∧
    [Song.mk "s0", Song.mk "a"] ≠ [Song.mk "s0"] ∧
    [Song.mk "s0", Song.mk "a"] ≠ [Song.mk "s0", Song.mk "a", Song.mk "b"] :=
  ⟨rfl, rfl, by decide, by decide⟩

/-- C5 (amended): when playlist resolution fails partway, the play
operation fails with the resolution error and the entries strictly before
the first missing-locator entry remain appended to the pending queue (a
partial enqueue); the failing entry and everything after it are not
appended.  When every entry has a locator, all items are appended and the
operation succeeds. -/
theorem C5_enqueue_on_resolution_failure (r : Registry) (g : GuildId) (c : ChannelId)
    (u : String) (gd : Guild) (hg : r g = some gd) :
    (∀ (urls : List String) (rest : List (Option String)),
       play_enqueue r g c u (.Playlist (some (urls.map some ++ none :: rest))) =
         (.error (.Ytdl u),
          Registry.insert r g
            { gd with channel_id := c, queue := gd.queue ++ urls.map Song.mk })) ∧
    (∀ urls : List String,
       play_enqueue r g c u (.Playlist (some (urls.map some))) =
         (.ok (),
          Registry.insert r g
            { gd with channel_id := c, queue := gd.queue ++ urls.map Song.mk })) := by
  constructor
  · intro urls rest
    rw [play_enqueue_eq]
    simp [anyMissing_stops, urlsBeforeMissing_stops, relocated, hg]
  · intro urls
    rw [play_enqueue_all_some]
    simp [relocated, hg]

theorem C5_enqueue_on_resolution_failure_witness :
    play_enqueue (fun n => if n = 0 then some ⟨1, none, none, []⟩ else none) 0 2 "u"
        (.Playlist (some [some "a", none])) =
      (.error (.Ytdl "u"),
       Registry.insert (fun n => if n = 0 then some ⟨1, none, none, []⟩ else none) 0
         ⟨2, none, none, [Song.mk "a"]⟩) :=
  (C5_enqueue_on_resolution_failure
    (fun n => if n = 0 then some ⟨1, none, none, []⟩ else none) 0 2 "u"
    ⟨1, none, none, []⟩ rfl).1 ["a"] []

/-- C6 counterexample: skip on a room whose entry exists but has no active
handle returns success, not an error — refuting "errors iff no room entry
exists or no active handle is set". -/
theorem C6_counterexample_no_handle_ok :
    (fun n => if n = 0 then some (⟨1, none, none, [Song.mk "a"]⟩ : Guild) else none) 0 =
      some ⟨1, none, none, [Song.mk "a"]⟩ ∧
    (⟨1, none, none, [Song.mk "a"]⟩ : Guild).handle = none ∧
    (handle_skip true
        (fun n => if n = 0 then some ⟨1, none, none, [Song.mk "a"]⟩ else none)
        (some 0)).1 = .ok () :=
  ⟨rfl, rfl, rfl⟩

/-- C6 (amended): skip calls `stop` on the room's active handle when one is
present; it returns the no-active-room error iff no room entry exists, in
which case it makes no transport calls; when the entry exists but has no
active handle it returns success without transport calls rather than an
error. -/
theorem C6_skip_behavior (stopOk : Bool) (r : Registry) (g : GuildId) :
    (r g = none → handle_skip stopOk r (some g) = (.error .BotNotPlaying, r, [])) ∧
    (∀ gd, r g = some gd → gd.handle = none →
       handle_skip stopOk r (some g) = (.ok (), r, [])) ∧
    (∀ gd h, r g = some gd → gd.handle = some h →
       handle_skip stopOk r (some g) =
         ((if stopOk then .ok () else .error .Unknown), r, [Ev.stop h])) := by
  refine ⟨?_, ?_, ?_⟩
  · intro hg; simp [handle_skip, hg]
  · intro gd hg hh; simp [handle_skip, hg, hh]
  · intro gd h hg hh
    by_cases hs : stopOk <;> simp [handle_skip, hg, hh, hs]

theorem C6_skip_behavior_witness :
    handle_skip true emptyRegistry (some 5) = (.error .BotNotPlaying, emptyRegistry, []) :=
  (C6_skip_behavior true emptyRegistry 5).1 rfl

/-- C7 counterexample: a play request for a room that is currently playing
(handle `some 7`, channel 1) relocates the stored destination to channel 2
while the handle stays set, and no `stop` transport call is made — refuting
"the destination is never changed while `activeHandle` is `Some` without
the active handle first being stopped". -/
theorem C7_counterexample_relocate_while_playing :
    (fun n => if n = 0 then some (⟨1, some 7, some (Song.mk "a"), []⟩ : Guild) else none) 0 =
      some ⟨1, some 7, some (Song.mk "a"), []⟩ ∧
    (handle_play ⟨true, true, true, 0⟩
        (fun n => if n = 0 then some ⟨1, some 7, some (Song.mk "a"), []⟩ else none)
        (some 0) (some "u") (some 2) (.ok (.SingleVideo (some "x")))).2.1 0 =
      some ⟨2, some 7, some (Song.mk "a"), [Song.mk "x"]⟩ ∧
    (handle_play ⟨true, true, true, 0⟩
        (fun n => if n = 0 then some ⟨1, some 7, some (Song.mk "a"), []⟩ else none)
        (some 0) (some "u") (some 2) (.ok (.SingleVideo (some "x")))).2.2 = [] :=
  ⟨rfl, rfl, rfl⟩

/-- C7 (amended): a play request's enqueue block always rebinds the room's
destination to the requester's channel — including while `activeHandle` is
`Some`, without stopping the handle — while no other operation (advance,
completion clear, skip) ever changes a room's destination, and the play
command makes no `stop` transport call. -/
theorem C7_destination_changes (r : Registry) (g : GuildId) :
    (∀ (c : ChannelId) (url : String) (resp : YtdlOutput),
       ∃ gd', (play_enqueue r g c url resp).2 g = some gd' ∧
         gd'.channel_id = c ∧ gd'.handle = (r g).bind Guild.handle) ∧
    (∀ (eff : Effects) (gd gd' : Guild), r g = some gd →
       (check_guild_queue eff r g).2.1 g = some gd' → gd'.channel_id = gd.channel_id) ∧
    (∀ (gd gd' : Guild), r g = some gd →
       clear_playing r g g = some gd' → gd'.channel_id = gd.channel_id) ∧
    (∀ stopOk : Bool, (handle_skip stopOk r (some g)).2.1 = r) ∧
    (∀ (eff : Effects) (gid? : Option GuildId) (url? : Option String)
        (ch? : Option ChannelId) (yt : Except PlayError YtdlOutput) (h : TrackHandle),
       Ev.stop h ∉ (handle_play eff r gid? url? ch? yt).2.2) := by
  refine ⟨?_, ?_, ?_, fun stopOk => handle_skip_state stopOk r (some g), ?_⟩
  · intro c url resp
    obtain ⟨tail, ht⟩ := play_enqueue_state_self r g c url resp
    refine ⟨_, ht, ?_, ?_⟩
    · cases hrg : r g <;> simp [relocated, hrg, Guild.new]
    · cases hrg : r g <;> simp [relocated, hrg, Guild.new]
  · intro eff gd gd' hg hc'
    rcases check_cases eff r g with hc | ⟨gd2, hrg2, hnp2, hq2, hc⟩ |
      ⟨gd2, x, rest, hrg2, hnp2, hq2, hc | hc⟩ <;> rw [hc] at hc'
    · rw [hg] at hc'
      injection hc' with h'
      subst h'
      rfl
    · rw [Registry.remove_self] at hc'
      simp at hc'
    · rw [Registry.insert_self] at hc'
      injection hc' with h'
      subst h'
      rw [hg] at hrg2
      injection hrg2 with h2
      subst h2
      rfl
    · rw [Registry.insert_self] at hc'
      injection hc' with h'
      subst h'
      rw [hg] at hrg2
      injection hrg2 with h2
      subst h2
      rfl
  · intro gd gd' hg hc'
    rw [clear_present r g gd hg, Registry.insert_self] at hc'
    injection hc' with h'
    subst h'
    rfl
  · intro eff gid? url? ch? yt h
    cases gid? with
    | none => simp [handle_play]
    | some gid =>
      cases url? with
      | none => simp [handle_play]
      | some url =>
        cases ch? with
        | none => simp [handle_play]
        | some ch =>
          cases yt with
          | error e => simp [handle_play]
          | ok resp =>
            cases hpe : play_enqueue r gid ch url resp with
            | mk res r1 =>
              cases res with
              | error e => simp [handle_play, hpe]
              | ok uu =>
                simp only [handle_play, hpe]
                exact check_events_no_stop eff r1 gid h

theorem C7_destination_changes_witness :
    (handle_skip true
        (fun n => if n = 0 then some (⟨1, some 7, some (Song.mk "a"), []⟩ : Guild) else none)
        (some 0)).2.1 =
      (fun n => if n = 0 then some (⟨1, some 7, some (Song.mk "a"), []⟩ : Guild) else none) :=
  (C7_destination_changes
    (fun n => if n = 0 then some (⟨1, some 7, some (Song.mk "a"), []⟩ : Guild) else none)
    0).2.2.2.1 true
